import Mathlib

/-!
# Verification of the winput input-synthesis engine

Shallow embedding, in Lean 4, of the numeric and structural core of the
`winput` Go library: the driver-protocol stroke encoder
(`hid/interception`), the message-parameter encoders (`mouse`,
`keyboard`), the mouse-trajectory synthesizer (`hid.Move`), the
dispatcher/safety wrapper (`winput.go`), driver initialization
(`hid.Init`), and DPI resolution (`window.GetDPI`).

Machine integers are modelled as `Nat`/`Int` with explicit reduction
modulo `2^w` where the Go code operates on fixed-width integers.
OS calls (cursor queries, `PostMessageW`, driver sends, device probes)
are modelled by explicit environments and effect lists.
-/

namespace Winput

set_option maxRecDepth 16384

/-! ## Two's-complement and little-endian byte helpers -/

/-- Interpretation of an `Int` as an unsigned `w`-bit value, i.e. the Go
conversion `uintN(v)` (two's-complement reduction mod `2^w`). -/
def toUnsigned (w : Nat) (z : Int) : Nat := (z % ((2 ^ w : Nat) : Int)).toNat

/-- Interpretation of an unsigned `w`-bit value as a signed `w`-bit
integer (two's complement). -/
def toSigned (w : Nat) (n : Nat) : Int :=
  if n < 2 ^ (w - 1) then (n : Int) else (n : Int) - (2 ^ w : Nat)

theorem toSigned16_toUnsigned16 (z : Int) (h1 : -32768 ≤ z) (h2 : z < 32768) :
    toSigned 16 (toUnsigned 16 z) = z := by
  unfold toSigned toUnsigned
  norm_num
  omega

theorem toSigned32_toUnsigned32 (z : Int) (h1 : -2147483648 ≤ z) (h2 : z < 2147483648) :
    toSigned 32 (toUnsigned 32 z) = z := by
  unfold toSigned toUnsigned
  norm_num
  omega

theorem toUnsigned16_lt (z : Int) : toUnsigned 16 z < 65536 := by
  unfold toUnsigned
  norm_num
  omega

theorem toUnsigned32_lt (z : Int) : toUnsigned 32 z < 4294967296 := by
  unfold toUnsigned
  norm_num
  omega

/-- Read a little-endian `u16` out of a byte buffer at a given offset. -/
def readU16LE (buf : List Nat) (off : Nat) : Nat :=
  buf.getD off 0 + 256 * buf.getD (off + 1) 0

/-- Read a little-endian `u32` out of a byte buffer at a given offset. -/
def readU32LE (buf : List Nat) (off : Nat) : Nat :=
  buf.getD off 0 + 256 * buf.getD (off + 1) 0 + 65536 * buf.getD (off + 2) 0 +
    16777216 * buf.getD (off + 3) 0

/-- Read a little-endian `i16` (two's complement) at a given offset. -/
def readI16LE (buf : List Nat) (off : Nat) : Int :=
  toSigned 16 (readU16LE buf off)

/-- Read a little-endian `i32` (two's complement) at a given offset. -/
def readI32LE (buf : List Nat) (off : Nat) : Int :=
  toSigned 32 (readU32LE buf off)

/-! ## Driver-protocol mouse stroke encoder

From `hid/interception`: the Go struct `MouseStroke` and the buffer
construction in `SendMouse`, which writes each field at an explicit byte
offset with `binary.LittleEndian` (state at 0, flags at 2, rolling at 4,
two zero bytes of padding at 6, x at 8, y at 12, information at 16) and
sends exactly 20 bytes. -/

structure MouseStroke where
  state : Nat        -- uint16
  flags : Nat        -- uint16
  rolling : Int      -- int16
  x : Int            -- int32
  y : Int            -- int32
  information : Nat  -- uint32

/-- The 20-byte buffer built by `SendMouse`: `PutUint16(buf[0:2], State)`,
`PutUint16(buf[2:4], Flags)`, `PutUint16(buf[4:6], uint16(Rolling))`,
padding at 6..7 (implicitly zero), `PutUint32(buf[8:12], uint32(X))`,
`PutUint32(buf[12:16], uint32(Y))`, `PutUint32(buf[16:20], Information)`. -/
def encodeMouseStroke (s : MouseStroke) : List Nat :=
  let st := s.state % 65536
  let fl := s.flags % 65536
  let ro := toUnsigned 16 s.rolling
  let xx := toUnsigned 32 s.x
  let yy := toUnsigned 32 s.y
  let inf := s.information % 4294967296
  [st % 256, st / 256 % 256,
   fl % 256, fl / 256 % 256,
   ro % 256, ro / 256 % 256,
   0, 0,
   xx % 256, xx / 256 % 256, xx / 65536 % 256, xx / 16777216 % 256,
   yy % 256, yy / 256 % 256, yy / 65536 % 256, yy / 16777216 % 256,
   inf % 256, inf / 256 % 256, inf / 65536 % 256, inf / 16777216 % 256]

/-- C1: encoding a mouse stroke writes state at byte offset 0 (u16), flags
at 2 (u16), rolling at 4 (i16), then two bytes of padding so the 32-bit
fields are 4-byte aligned: x at 8 (i32), y at 12 (i32), information at 16
(u32), all little-endian; reading the buffer back at those fixed offsets
recovers exactly the field values (for fields within their Go types'
ranges). -/
theorem mouse_stroke_layout (s : MouseStroke)
    (hst : s.state < 65536) (hfl : s.flags < 65536)
    (hr1 : -32768 ≤ s.rolling) (hr2 : s.rolling < 32768)
    (hx1 : -2147483648 ≤ s.x) (hx2 : s.x < 2147483648)
    (hy1 : -2147483648 ≤ s.y) (hy2 : s.y < 2147483648)
    (hi : s.information < 4294967296) :
    (encodeMouseStroke s).length = 20 ∧
    (encodeMouseStroke s).getD 6 0 = 0 ∧
    (encodeMouseStroke s).getD 7 0 = 0 ∧
    readU16LE (encodeMouseStroke s) 0 = s.state ∧
    readU16LE (encodeMouseStroke s) 2 = s.flags ∧
    readI16LE (encodeMouseStroke s) 4 = s.rolling ∧
    readI32LE (encodeMouseStroke s) 8 = s.x ∧
    readI32LE (encodeMouseStroke s) 12 = s.y ∧
    readU32LE (encodeMouseStroke s) 16 = s.information := by
  have hlen : (encodeMouseStroke s).length = 20 := rfl
  have hpad6 : (encodeMouseStroke s).getD 6 0 = 0 := rfl
  have hpad7 : (encodeMouseStroke s).getD 7 0 = 0 := rfl
  have hstate : readU16LE (encodeMouseStroke s) 0 =
      s.state % 65536 % 256 + 256 * (s.state % 65536 / 256 % 256) := rfl
  have hflags : readU16LE (encodeMouseStroke s) 2 =
      s.flags % 65536 % 256 + 256 * (s.flags % 65536 / 256 % 256) := rfl
  have hroll : readU16LE (encodeMouseStroke s) 4 =
      toUnsigned 16 s.rolling % 256 + 256 * (toUnsigned 16 s.rolling / 256 % 256) := rfl
  have hxv : readU32LE (encodeMouseStroke s) 8 =
      toUnsigned 32 s.x % 256 + 256 * (toUnsigned 32 s.x / 256 % 256) +
        65536 * (toUnsigned 32 s.x / 65536 % 256) +
        16777216 * (toUnsigned 32 s.x / 16777216 % 256) := rfl
  have hyv : readU32LE (encodeMouseStroke s) 12 =
      toUnsigned 32 s.y % 256 + 256 * (toUnsigned 32 s.y / 256 % 256) +
        65536 * (toUnsigned 32 s.y / 65536 % 256) +
        16777216 * (toUnsigned 32 s.y / 16777216 % 256) := rfl
  have hinf : readU32LE (encodeMouseStroke s) 16 =
      s.information % 4294967296 % 256 + 256 * (s.information % 4294967296 / 256 % 256) +
        65536 * (s.information % 4294967296 / 65536 % 256) +
        16777216 * (s.information % 4294967296 / 16777216 % 256) := rfl
  have hro16 : toUnsigned 16 s.rolling < 65536 := toUnsigned16_lt _
  have hx32 : toUnsigned 32 s.x < 4294967296 := toUnsigned32_lt _
  have hy32 : toUnsigned 32 s.y < 4294967296 := toUnsigned32_lt _
  refine ⟨hlen, hpad6, hpad7, ?_, ?_, ?_, ?_, ?_, ?_⟩
  · rw [hstate]; omega
  · rw [hflags]; omega
  · rw [readI16LE, hroll]
    have : toUnsigned 16 s.rolling % 256 + 256 * (toUnsigned 16 s.rolling / 256 % 256) =
        toUnsigned 16 s.rolling := by omega
    rw [this]
    exact toSigned16_toUnsigned16 s.rolling hr1 hr2
  · rw [readI32LE, hxv]
    have : toUnsigned 32 s.x % 256 + 256 * (toUnsigned 32 s.x / 256 % 256) +
        65536 * (toUnsigned 32 s.x / 65536 % 256) +
        16777216 * (toUnsigned 32 s.x / 16777216 % 256) = toUnsigned 32 s.x := by omega
    rw [this]
    exact toSigned32_toUnsigned32 s.x hx1 hx2
  · rw [readI32LE, hyv]
    have : toUnsigned 32 s.y % 256 + 256 * (toUnsigned 32 s.y / 256 % 256) +
        65536 * (toUnsigned 32 s.y / 65536 % 256) +
        16777216 * (toUnsigned 32 s.y / 16777216 % 256) = toUnsigned 32 s.y := by omega
    rw [this]
    exact toSigned32_toUnsigned32 s.y hy1 hy2
  · rw [hinf]; omega

/-- C1 witness: the concrete stroke state=1, flags=0, rolling=-5, x=10,
y=-10, information=0 decodes back to exactly those fields at the fixed
offsets. -/
theorem mouse_stroke_layout_witness :
    (encodeMouseStroke ⟨1, 0, -5, 10, -10, 0⟩).length = 20 ∧
    (encodeMouseStroke ⟨1, 0, -5, 10, -10, 0⟩).getD 6 0 = 0 ∧
    (encodeMouseStroke ⟨1, 0, -5, 10, -10, 0⟩).getD 7 0 = 0 ∧
    readU16LE (encodeMouseStroke ⟨1, 0, -5, 10, -10, 0⟩) 0 = 1 ∧
    readU16LE (encodeMouseStroke ⟨1, 0, -5, 10, -10, 0⟩) 2 = 0 ∧
    readI16LE (encodeMouseStroke ⟨1, 0, -5, 10, -10, 0⟩) 4 = -5 ∧
    readI32LE (encodeMouseStroke ⟨1, 0, -5, 10, -10, 0⟩) 8 = 10 ∧
    readI32LE (encodeMouseStroke ⟨1, 0, -5, 10, -10, 0⟩) 12 = -10 ∧
    readU32LE (encodeMouseStroke ⟨1, 0, -5, 10, -10, 0⟩) 16 = 0 :=
  mouse_stroke_layout ⟨1, 0, -5, 10, -10, 0⟩ (by norm_num) (by norm_num)
    (by norm_num) (by norm_num) (by norm_num) (by norm_num) (by norm_num)
    (by norm_num) (by norm_num)

/-! ## Disjoint bitwise-or is addition

The Go encoders combine disjoint bit fields with `|`; on values whose low
field fits below the shift, bitwise or coincides with addition. -/

theorem lor_two_pow_mul_eq_add :
    ∀ (k a b : Nat), a < 2 ^ k → a ||| 2 ^ k * b = 2 ^ k * b + a := by
  intro k
  induction k with
  | zero =>
    intro a b h
    have ha : a = 0 := by omega
    subst ha
    simp
  | succ k ih =>
    intro a b h
    have hpow : (2 : Nat) ^ (k + 1) = 2 * 2 ^ k := by
      rw [Nat.pow_succ, Nat.mul_comm]
    have hlt : a / 2 < 2 ^ k := by omega
    have key := ih (a / 2) b hlt
    have hfalse : ∀ m : Nat, Nat.bit false m = 2 * m := by
      intro m; simp [Nat.bit]
    have htrue : ∀ m : Nat, Nat.bit true m = 2 * m + 1 := by
      intro m; simp [Nat.bit]
    have hb2 : 2 ^ (k + 1) * b = Nat.bit false (2 ^ k * b) := by
      rw [hfalse, hpow, Nat.mul_assoc]
    have hlin : 2 ^ (k + 1) * b = 2 * (2 ^ k * b) := by
      rw [hpow, Nat.mul_assoc]
    rcases (show a % 2 = 0 ∨ a % 2 = 1 by omega) with hr | hr
    · have ha2 : a = Nat.bit false (a / 2) := by rw [hfalse]; omega
      calc a ||| 2 ^ (k + 1) * b
          = Nat.bit false (a / 2) ||| Nat.bit false (2 ^ k * b) := by
            rw [← ha2, ← hb2]
        _ = Nat.bit false (a / 2 ||| 2 ^ k * b) := by rw [Nat.lor_bit]; rfl
        _ = Nat.bit false (2 ^ k * b + a / 2) := by rw [key]
        _ = 2 * (2 ^ k * b + a / 2) := hfalse _
        _ = 2 ^ (k + 1) * b + a := by omega
    · have ha2 : a = Nat.bit true (a / 2) := by rw [htrue]; omega
      calc a ||| 2 ^ (k + 1) * b
          = Nat.bit true (a / 2) ||| Nat.bit false (2 ^ k * b) := by
            rw [← ha2, ← hb2]
        _ = Nat.bit true (a / 2 ||| 2 ^ k * b) := by rw [Nat.lor_bit]; rfl
        _ = Nat.bit true (2 ^ k * b + a / 2) := by rw [key]
        _ = 2 * (2 ^ k * b + a / 2) + 1 := htrue _
        _ = 2 ^ (k + 1) * b + a := by omega

/-! ## Message-backend mouse parameter (mouse/post.go)

`makeLParam` clips each coordinate to the signed 16-bit range and packs
x into the low word and y into the high word of the LPARAM. -/

/-- `clipToInt16` from mouse/post.go: clamp an int32 value into
[-32768, 32767]. -/
def clipToInt16 (v : Int) : Int :=
  if v > 32767 then 32767 else if v < -32768 then -32768 else v

/-- `makeLParam` from mouse/post.go:
`uintptr(uint16(lx)) | (uintptr(uint16(ly)) << 16)` after clipping. -/
def makeLParam (x y : Int) : Nat :=
  toUnsigned 16 (clipToInt16 x) ||| (toUnsigned 16 (clipToInt16 y) <<< 16)

/-- Reading the low word of a packed LPARAM back as a signed 16-bit x
coordinate (the receiving side of the wire format). -/
def lparamLoWord (p : Nat) : Int := toSigned 16 (p % 65536)

/-- Reading the high word of a packed LPARAM back as a signed 16-bit y
coordinate. -/
def lparamHiWord (p : Nat) : Int := toSigned 16 (p / 65536 % 65536)

theorem clipToInt16_bounds (v : Int) :
    -32768 ≤ clipToInt16 v ∧ clipToInt16 v ≤ 32767 := by
  unfold clipToInt16
  split_ifs <;> omega

theorem clipToInt16_eq_self (v : Int) (h1 : -32768 ≤ v) (h2 : v ≤ 32767) :
    clipToInt16 v = v := by
  unfold clipToInt16
  split_ifs <;> omega

theorem makeLParam_eq_add (x y : Int) :
    makeLParam x y =
      toUnsigned 16 (clipToInt16 x) + 65536 * toUnsigned 16 (clipToInt16 y) := by
  unfold makeLParam
  rw [Nat.shiftLeft_eq]
  have h16 : (2 : Nat) ^ 16 = 65536 := by norm_num
  rw [show toUnsigned 16 (clipToInt16 y) * 2 ^ 16 =
        2 ^ 16 * toUnsigned 16 (clipToInt16 y) from Nat.mul_comm _ _]
  rw [lor_two_pow_mul_eq_add 16 _ _ (by rw [h16]; exact toUnsigned16_lt _), h16]
  omega

theorem lparamLoWord_makeLParam (x y : Int) :
    lparamLoWord (makeLParam x y) = clipToInt16 x := by
  have hx := toUnsigned16_lt (clipToInt16 x)
  have hmod : makeLParam x y % 65536 = toUnsigned 16 (clipToInt16 x) := by
    rw [makeLParam_eq_add]; omega
  rw [lparamLoWord, hmod]
  exact toSigned16_toUnsigned16 _ (clipToInt16_bounds x).1
    (by have := (clipToInt16_bounds x).2; omega)

theorem lparamHiWord_makeLParam (x y : Int) :
    lparamHiWord (makeLParam x y) = clipToInt16 y := by
  have hx := toUnsigned16_lt (clipToInt16 x)
  have hy := toUnsigned16_lt (clipToInt16 y)
  have hdiv : makeLParam x y / 65536 % 65536 = toUnsigned 16 (clipToInt16 y) := by
    rw [makeLParam_eq_add]; omega
  rw [lparamHiWord, hdiv]
  exact toSigned16_toUnsigned16 _ (clipToInt16_bounds y).1
    (by have := (clipToInt16_bounds y).2; omega)

/-- C4: packing x into the low 16 bits and y into the high 16 bits and
unpacking recovers (x, y) exactly when both lie in [-32768, 32767]; any
coordinate outside that range reads back as the clamped boundary value
(never a wrapped one); in particular x = 40000 reads back as 32767. -/
theorem lparam_pack_roundtrip_clamped (x y : Int) :
    lparamLoWord (makeLParam x y) = clipToInt16 x ∧
    lparamHiWord (makeLParam x y) = clipToInt16 y ∧
    (-32768 ≤ x → x ≤ 32767 → lparamLoWord (makeLParam x y) = x) ∧
    (-32768 ≤ y → y ≤ 32767 → lparamHiWord (makeLParam x y) = y) ∧
    lparamLoWord (makeLParam 40000 y) = 32767 := by
  refine ⟨lparamLoWord_makeLParam x y, lparamHiWord_makeLParam x y, ?_, ?_, ?_⟩
  · intro h1 h2
    rw [lparamLoWord_makeLParam, clipToInt16_eq_self x h1 h2]
  · intro h1 h2
    rw [lparamHiWord_makeLParam, clipToInt16_eq_self y h1 h2]
  · rw [lparamLoWord_makeLParam]
    norm_num [clipToInt16]

/-- C4 witness: concrete round trip at (123, -456), and clamping at
x = 40000. -/
theorem lparam_pack_roundtrip_clamped_witness :
    lparamLoWord (makeLParam 123 (-456)) = 123 ∧
    lparamHiWord (makeLParam 123 (-456)) = -456 ∧
    lparamLoWord (makeLParam 40000 0) = 32767 := by
  have h1 := lparam_pack_roundtrip_clamped 123 (-456)
  have h2 := lparam_pack_roundtrip_clamped 40000 0
  exact ⟨h1.2.2.1 (by norm_num) (by norm_num),
    h1.2.2.2.1 (by norm_num) (by norm_num), h2.2.2.2.2⟩

/-! ## Message-backend keyboard parameter (keyboard/post.go, keyboard/keys.go) -/

/-- `isExtended` from keyboard/keys.go: true exactly for Insert (0x52),
Delete (0x53), Home (0x47), End (0x4F), PageUp (0x49), PageDown (0x51),
ArrowUp (0x48), ArrowDown (0x50), Left (0x4B), Right (0x4D),
NumLock (0x45), numpad Divide (0x35), right Ctrl (0x1D), right Alt (0x38). -/
def isExtended (key : Nat) : Bool :=
  match key with
  | 0x52 | 0x53 | 0x47 | 0x4F | 0x49 | 0x51 | 0x48 | 0x50
  | 0x4B | 0x4D | 0x45 | 0x35 | 0x1D | 0x38 => true
  | _ => false

/-- `makeKeyLParam` from keyboard/post.go: repeat count 1 in bit 0, scan
code in bits 16-23, extended flag in bit 24, previous-state and
transition bits 30-31 set on key-up. -/
def makeKeyLParam (sc : Nat) (isUp : Bool) : Nat :=
  let l1 := 1
  let l2 := l1 ||| ((sc &&& 0xFF) <<< 16)
  let l3 := if isExtended sc then l2 ||| (1 <<< 24) else l2
  if isUp then l3 ||| (1 <<< 30 ||| 1 <<< 31) else l3

theorem makeKeyLParam_eq (sc : Nat) (isUp : Bool) :
    makeKeyLParam sc isUp =
      1 + 65536 * (sc % 256) + (if isExtended sc then 16777216 else 0) +
        (if isUp then 3221225472 else 0) := by
  unfold makeKeyLParam
  have hmask : sc &&& 0xFF = sc % 256 := by
    have := Nat.and_pow_two_sub_one_eq_mod sc 8
    norm_num at this
    exact this
  have hmod : sc % 256 < 256 := Nat.mod_lt _ (by norm_num)
  have h2 : (1 : Nat) ||| (sc &&& 0xFF) <<< 16 = 1 + 65536 * (sc % 256) := by
    rw [hmask, Nat.shiftLeft_eq]
    rw [show sc % 256 * 2 ^ 16 = 2 ^ 16 * (sc % 256) from Nat.mul_comm _ _]
    rw [lor_two_pow_mul_eq_add 16 _ _ (by norm_num)]
    norm_num
    omega
  have hl2lt : 1 + 65536 * (sc % 256) < 16777216 := by omega
  have h30 : (1 : Nat) <<< 30 ||| 1 <<< 31 = 3221225472 := by
    rw [Nat.shiftLeft_eq, Nat.shiftLeft_eq]
    rw [show (1 : Nat) * 2 ^ 31 = 2 ^ 31 * 1 from by ring]
    rw [lor_two_pow_mul_eq_add 31 _ _ (by norm_num)]
    norm_num
  have h24 : (1 + 65536 * (sc % 256)) ||| 1 <<< 24 =
      1 + 65536 * (sc % 256) + 16777216 := by
    rw [Nat.shiftLeft_eq]
    rw [show (1 : Nat) * 2 ^ 24 = 2 ^ 24 * 1 from by ring]
    rw [lor_two_pow_mul_eq_add 24 _ _ (by omega)]
    omega
  have hupor : ∀ m : Nat, m < 33554433 → m ||| ((1 : Nat) <<< 30 ||| 1 <<< 31) =
      m + 3221225472 := by
    intro m hm
    rw [h30, show (3221225472 : Nat) = 2 ^ 30 * 3 from by norm_num]
    rw [lor_two_pow_mul_eq_add 30 _ _ (by omega)]
    omega
  simp only [makeKeyLParam, h2]
  cases hext : isExtended sc <;> cases hup : isUp <;>
    simp only [ite_true, ite_false, Bool.false_eq_true, if_false, if_true] <;>
    first
      | omega
      | (rw [hupor (1 + 65536 * (sc % 256)) (by omega)] <;> omega)
      | (rw [h24] <;> omega)
      | (rw [h24, hupor (1 + 65536 * (sc % 256) + 16777216) (by omega)] <;> omega)

/-- C5: for every key (scan codes are 8-bit values), the keyboard LPARAM
has bit 0 equal to 1 (repeat count), bits 16-23 equal to the scan code,
bits 30 and 31 both 0 on key-down and both 1 on key-up, and bit 24 set
exactly when the key is in the fixed extended-key allow-list. -/
theorem key_lparam_bits (sc : Nat) (isUp : Bool) (hsc : sc < 256) :
    makeKeyLParam sc isUp % 2 = 1 ∧
    makeKeyLParam sc isUp / 65536 % 256 = sc ∧
    makeKeyLParam sc isUp / 16777216 % 2 = (if isExtended sc then 1 else 0) ∧
    makeKeyLParam sc isUp / 1073741824 % 2 = (if isUp then 1 else 0) ∧
    makeKeyLParam sc isUp / 2147483648 % 2 = (if isUp then 1 else 0) := by
  rw [makeKeyLParam_eq]
  split_ifs <;> refine ⟨by omega, by omega, by omega, by omega, by omega⟩

/-- C5 witness: the Left-arrow key (0x4B, in the extended allow-list) on
key-up. -/
theorem key_lparam_bits_witness :
    makeKeyLParam 0x4B true % 2 = 1 ∧
    makeKeyLParam 0x4B true / 65536 % 256 = 0x4B ∧
    makeKeyLParam 0x4B true / 16777216 % 2 = (if isExtended 0x4B then 1 else 0) ∧
    makeKeyLParam 0x4B true / 1073741824 % 2 = (if true then 1 else 0) ∧
    makeKeyLParam 0x4B true / 2147483648 % 2 = (if true then 1 else 0) :=
  key_lparam_bits 0x4B true (by norm_num)

/-! ## Hardware-backend trajectory synthesizer (hid/control.go `Move`)

The Go code computes all coordinates in `int32`; we model int32
arithmetic on `Int` with explicit two's-complement reduction. -/

/-- Reduce an integer into the int32 range (Go int32 wrap-around). -/
def wrap32 (z : Int) : Int := (z + 2147483648) % 4294967296 - 2147483648

/-- int32 addition. -/
def add32 (a b : Int) : Int := wrap32 (a + b)

/-- int32 subtraction. -/
def sub32 (a b : Int) : Int := wrap32 (a - b)

/-- int32 multiplication. -/
def mul32 (a b : Int) : Int := wrap32 (a * b)

/-- `abs` from hid/control.go (`if n < 0 { return -n }; return n`); the
negation is int32 negation, so `abs` of the minimal int32 wraps. -/
def absInt32 (n : Int) : Int := if n < 0 then wrap32 (-n) else n

theorem wrap32_eq_self (z : Int) (h1 : -2147483648 ≤ z) (h2 : z < 2147483648) :
    wrap32 z = z := by
  unfold wrap32
  omega

theorem wrap32_range (z : Int) :
    -2147483648 ≤ wrap32 z ∧ wrap32 z < 2147483648 := by
  unfold wrap32
  omega

theorem absInt32_eq (z : Int) (h1 : -2147483648 < z) (h2 : z < 2147483648) :
    absInt32 z = |z| := by
  unfold absInt32 wrap32
  rcases le_or_lt 0 z with hz | hz
  · rw [abs_of_nonneg hz, if_neg (by omega)]
  · rw [abs_of_neg hz, if_pos hz]
    omega

theorem absInt32_range (z : Int) (h1 : -2147483648 ≤ z) (h2 : z < 2147483648) :
    -2147483648 ≤ absInt32 z ∧ absInt32 z < 2147483648 := by
  unfold absInt32 wrap32
  split_ifs <;> omega

/-- Adaptive step-count selection from hid/control.go `Move` (Go integer
division truncates toward zero). -/
def calcSteps (maxDist : Int) : Int :=
  if maxDist < 100 then
    if maxDist.tdiv 5 < 5 then 5 else maxDist.tdiv 5
  else if maxDist < 500 then 20
  else if maxDist < 1000 then 30
  else 40

/-- The Chebyshev distance as `Move` computes it: int32 differences, int32
absolute values, then the larger of the two. -/
def moveMaxDist (cx cy tx ty : Int) : Int :=
  max (absInt32 (sub32 tx cx)) (absInt32 (sub32 ty cy))

/-- The step count `Move` uses for a trajectory from (cx, cy) to (tx, ty). -/
def moveSteps (cx cy tx ty : Int) : Int := calcSteps (moveMaxDist cx cy tx ty)

/-- The step-count policy as the specification words it, as a function of
the mathematical Chebyshev distance: below 100 use distance/5 with a
floor of 5, below 500 use 20, below 1000 use 30, otherwise 40. -/
def specStepPolicy (d : Int) : Int :=
  if d < 100 then max (d / 5) 5
  else if d < 500 then 20
  else if d < 1000 then 30
  else 40

theorem calcSteps_bounds (d : Int) : 5 ≤ calcSteps d ∧ calcSteps d ≤ 40 := by
  unfold calcSteps
  rcases le_or_lt 0 d with hd | hd
  · rw [Int.tdiv_eq_ediv hd (by norm_num)]
    split_ifs <;> omega
  · have h0 : (0 : Int) ≤ -d := by omega
    have h1 : d.tdiv 5 = -(-d / 5) := by
      rw [← Int.tdiv_eq_ediv h0 (by norm_num), ← Int.neg_tdiv, neg_neg]
    rw [h1]
    split_ifs <;> omega

theorem calcSteps_eq_spec (d : Int) (hd : 0 ≤ d) :
    calcSteps d = specStepPolicy d := by
  unfold calcSteps specStepPolicy
  rw [Int.tdiv_eq_ediv hd (by norm_num)]
  split_ifs <;> omega

/-- C3: `Move` computes the Chebyshev distance max(|dx|, |dy|) and selects
the step count as: distance under 100 gives distance/5 (integer division)
floored at 5; under 500 gives 20; under 1000 gives 30; otherwise 40 — and
for every start/target pair the step count is at least 5 and at most 40
(the policy equality holds whenever the coordinate differences are
representable in int32, which the int32 subtraction otherwise wraps). -/
theorem move_step_count (cx cy tx ty : Int) :
    (5 ≤ moveSteps cx cy tx ty ∧ moveSteps cx cy tx ty ≤ 40) ∧
    (-2147483648 < tx - cx → tx - cx < 2147483648 →
     -2147483648 < ty - cy → ty - cy < 2147483648 →
     moveSteps cx cy tx ty = specStepPolicy (max |tx - cx| |ty - cy|)) := by
  constructor
  · exact calcSteps_bounds _
  · intro h1 h2 h3 h4
    unfold moveSteps moveMaxDist sub32
    rw [wrap32_eq_self _ (by omega) h2, wrap32_eq_self _ (by omega) h4,
      absInt32_eq _ h1 h2, absInt32_eq _ h3 h4]
    exact calcSteps_eq_spec _ (le_trans (abs_nonneg _) (le_max_left _ _))

/-- C3 witness: the spec's end-to-end pair (500,500) → (520,480), where
the distance is 20 and the floor of 5 applies. -/
theorem move_step_count_witness :
    (5 ≤ moveSteps 500 500 520 480 ∧ moveSteps 500 500 520 480 ≤ 40) ∧
    moveSteps 500 500 520 480 = specStepPolicy (max |520 - 500| |480 - 500|) :=
  ⟨(move_step_count 500 500 520 480).1,
    (move_step_count 500 500 520 480).2 (by norm_num) (by norm_num)
      (by norm_num) (by norm_num)⟩

/-- int32 truncated division (Go `/` on int32). -/
def tdiv32 (a b : Int) : Int := wrap32 (a.tdiv b)

theorem tdiv_bounds (a b M : Int) (hb : 0 < b) (h1 : -M ≤ a) (h2 : a ≤ M)
    (hM : 0 ≤ M) : -M ≤ a.tdiv b ∧ a.tdiv b ≤ M := by
  rcases le_or_lt 0 a with ha | ha
  · rw [Int.tdiv_eq_ediv ha (le_of_lt hb)]
    have hn1 := Int.ediv_nonneg ha (le_of_lt hb)
    have hn2 := Int.ediv_le_self b ha
    omega
  · have h0 : (0 : Int) ≤ -a := by omega
    have hq : a.tdiv b = -(-a / b) := by
      rw [← Int.tdiv_eq_ediv h0 (le_of_lt hb), ← Int.neg_tdiv, neg_neg]
    have hn1 := Int.ediv_nonneg h0 (le_of_lt hb)
    have hn2 := Int.ediv_le_self b h0
    omega

/-- One iteration of the `Move` loop from hid/control.go, under the
nominal-conditions model of the claim: the re-queried cursor position
equals the start position plus the sum `s` of the deltas injected so far
(the cursor moves exactly by each injected delta, jitter included).
`i` is the 1-based loop index; `jit i` is the pseudo-random jitter pair
drawn at step `i` (`rng.Intn(3) - 1` per axis); the result is the new
accumulated delta sum.  All coordinate arithmetic is int32, as in Go;
`steps - 5` and `steps - 2` stay exact because `steps ∈ [5, 40]`. -/
def moveStepGo (jit : Nat → Int × Int) (steps cx cy tx ty : Int)
    (s : Int × Int) (i : Nat) : Int × Int :=
  let nextX := add32 cx (tdiv32 (mul32 (sub32 tx cx) (i : Int)) steps)
  let nextY := add32 cy (tdiv32 (mul32 (sub32 ty cy) (i : Int)) steps)
  let dx := sub32 nextX (cx + s.1)
  let dy := sub32 nextY (cy + s.2)
  if (i : Int) > steps - 5 ∧ absInt32 dx < 3 ∧ absInt32 dy < 3 then s
  else
    let dx2 := if (i : Int) < steps - 2 then add32 dx (jit i).1 else dx
    let dy2 := if (i : Int) < steps - 2 then add32 dy (jit i).2 else dy
    if dx2 = 0 ∧ dy2 = 0 then s
    else (s.1 + dx2, s.2 + dy2)

/-- The cumulative sum of the relative deltas injected by `Move` from
(cx, cy) to (tx, ty) under the nominal-conditions model. -/
def moveDeltaSum (jit : Nat → Int × Int) (cx cy tx ty : Int) : Int × Int :=
  (List.range' 1 (moveSteps cx cy tx ty).toNat).foldl
    (moveStepGo jit (moveSteps cx cy tx ty) cx cy tx ty) (0, 0)

/-- `moveStepGo` with the int32 wrap-arounds removed; equal to it whenever
coordinates are bounded by 2^20 and the accumulated sum by 9·10^7. -/
def moveStepPure (jit : Nat → Int × Int) (steps cx cy tx ty : Int)
    (s : Int × Int) (i : Nat) : Int × Int :=
  let nextX := cx + ((tx - cx) * (i : Int)).tdiv steps
  let nextY := cy + ((ty - cy) * (i : Int)).tdiv steps
  let dx := nextX - (cx + s.1)
  let dy := nextY - (cy + s.2)
  if (i : Int) > steps - 5 ∧ |dx| < 3 ∧ |dy| < 3 then s
  else
    let dx2 := if (i : Int) < steps - 2 then dx + (jit i).1 else dx
    let dy2 := if (i : Int) < steps - 2 then dy + (jit i).2 else dy
    if dx2 = 0 ∧ dy2 = 0 then s
    else (s.1 + dx2, s.2 + dy2)

theorem moveStepGo_eq_pure (jit : Nat → Int × Int) (steps cx cy tx ty : Int)
    (s : Int × Int) (i : Nat)
    (hj1 : -1 ≤ (jit i).1) (hj2 : (jit i).1 ≤ 1)
    (hj3 : -1 ≤ (jit i).2) (hj4 : (jit i).2 ≤ 1)
    (h5 : 5 ≤ steps) (h40 : steps ≤ 40)
    (hcx1 : -1048576 ≤ cx) (hcx2 : cx ≤ 1048576)
    (hcy1 : -1048576 ≤ cy) (hcy2 : cy ≤ 1048576)
    (htx1 : -1048576 ≤ tx) (htx2 : tx ≤ 1048576)
    (hty1 : -1048576 ≤ ty) (hty2 : ty ≤ 1048576)
    (hs1 : -90000000 ≤ s.1) (hs2 : s.1 ≤ 90000000)
    (hs3 : -90000000 ≤ s.2) (hs4 : s.2 ≤ 90000000)
    (hi1 : 1 ≤ i) (hi2 : (i : Int) ≤ steps) :
    moveStepGo jit steps cx cy tx ty s i = moveStepPure jit steps cx cy tx ty s i := by
  have hi0 : (0 : Int) ≤ (i : Int) := by omega
  have e1 : sub32 tx cx = tx - cx := wrap32_eq_self _ (by omega) (by omega)
  have e5 : sub32 ty cy = ty - cy := wrap32_eq_self _ (by omega) (by omega)
  have hm1a : -83886080 ≤ (tx - cx) * (i : Int) := by nlinarith
  have hm1b : (tx - cx) * (i : Int) ≤ 83886080 := by nlinarith
  have hm2a : -83886080 ≤ (ty - cy) * (i : Int) := by nlinarith
  have hm2b : (ty - cy) * (i : Int) ≤ 83886080 := by nlinarith
  have e2 : mul32 (tx - cx) (i : Int) = (tx - cx) * (i : Int) :=
    wrap32_eq_self _ (by omega) (by omega)
  have e6 : mul32 (ty - cy) (i : Int) = (ty - cy) * (i : Int) :=
    wrap32_eq_self _ (by omega) (by omega)
  have hq1 := tdiv_bounds ((tx - cx) * (i : Int)) steps 83886080 (by omega) hm1a hm1b
    (by norm_num)
  have hq2 := tdiv_bounds ((ty - cy) * (i : Int)) steps 83886080 (by omega) hm2a hm2b
    (by norm_num)
  have e3 : tdiv32 ((tx - cx) * (i : Int)) steps = ((tx - cx) * (i : Int)).tdiv steps := by
    unfold tdiv32
    exact wrap32_eq_self _ (by omega) (by omega)
  have e7 : tdiv32 ((ty - cy) * (i : Int)) steps = ((ty - cy) * (i : Int)).tdiv steps := by
    unfold tdiv32
    exact wrap32_eq_self _ (by omega) (by omega)
  have e4 : add32 cx (((tx - cx) * (i : Int)).tdiv steps) =
      cx + ((tx - cx) * (i : Int)).tdiv steps := by
    unfold add32
    exact wrap32_eq_self _ (by omega) (by omega)
  have e8 : add32 cy (((ty - cy) * (i : Int)).tdiv steps) =
      cy + ((ty - cy) * (i : Int)).tdiv steps := by
    unfold add32
    exact wrap32_eq_self _ (by omega) (by omega)
  have e9 : sub32 (cx + ((tx - cx) * (i : Int)).tdiv steps) (cx + s.1) =
      cx + ((tx - cx) * (i : Int)).tdiv steps - (cx + s.1) :=
    wrap32_eq_self _ (by omega) (by omega)
  have e10 : sub32 (cy + ((ty - cy) * (i : Int)).tdiv steps) (cy + s.2) =
      cy + ((ty - cy) * (i : Int)).tdiv steps - (cy + s.2) :=
    wrap32_eq_self _ (by omega) (by omega)
  have e11 : absInt32 (cx + ((tx - cx) * (i : Int)).tdiv steps - (cx + s.1)) =
      |cx + ((tx - cx) * (i : Int)).tdiv steps - (cx + s.1)| :=
    absInt32_eq _ (by omega) (by omega)
  have e12 : absInt32 (cy + ((ty - cy) * (i : Int)).tdiv steps - (cy + s.2)) =
      |cy + ((ty - cy) * (i : Int)).tdiv steps - (cy + s.2)| :=
    absInt32_eq _ (by omega) (by omega)
  have e13 : add32 (cx + ((tx - cx) * (i : Int)).tdiv steps - (cx + s.1)) (jit i).1 =
      cx + ((tx - cx) * (i : Int)).tdiv steps - (cx + s.1) + (jit i).1 := by
    unfold add32
    exact wrap32_eq_self _ (by omega) (by omega)
  have e14 : add32 (cy + ((ty - cy) * (i : Int)).tdiv steps - (cy + s.2)) (jit i).2 =
      cy + ((ty - cy) * (i : Int)).tdiv steps - (cy + s.2) + (jit i).2 := by
    unfold add32
    exact wrap32_eq_self _ (by omega) (by omega)
  simp only [moveStepGo, moveStepPure, e1, e2, e3, e4, e5, e6, e7, e8, e9, e10,
    e11, e12, e13, e14]

theorem moveStepPure_bound (jit : Nat → Int × Int) (steps cx cy tx ty : Int)
    (s : Int × Int) (i : Nat)
    (hj1 : -1 ≤ (jit i).1) (hj2 : (jit i).1 ≤ 1)
    (hj3 : -1 ≤ (jit i).2) (hj4 : (jit i).2 ≤ 1)
    (h5 : 5 ≤ steps) (h40 : steps ≤ 40)
    (hcx1 : -1048576 ≤ cx) (hcx2 : cx ≤ 1048576)
    (hcy1 : -1048576 ≤ cy) (hcy2 : cy ≤ 1048576)
    (htx1 : -1048576 ≤ tx) (htx2 : tx ≤ 1048576)
    (hty1 : -1048576 ≤ ty) (hty2 : ty ≤ 1048576)
    (hs1 : -90000000 ≤ s.1) (hs2 : s.1 ≤ 90000000)
    (hs3 : -90000000 ≤ s.2) (hs4 : s.2 ≤ 90000000)
    (hi1 : 1 ≤ i) (hi2 : (i : Int) ≤ steps) :
    -90000000 ≤ (moveStepPure jit steps cx cy tx ty s i).1 ∧
    (moveStepPure jit steps cx cy tx ty s i).1 ≤ 90000000 ∧
    -90000000 ≤ (moveStepPure jit steps cx cy tx ty s i).2 ∧
    (moveStepPure jit steps cx cy tx ty s i).2 ≤ 90000000 := by
  have hi0 : (0 : Int) ≤ (i : Int) := by omega
  have hm1a : -83886080 ≤ (tx - cx) * (i : Int) := by nlinarith
  have hm1b : (tx - cx) * (i : Int) ≤ 83886080 := by nlinarith
  have hm2a : -83886080 ≤ (ty - cy) * (i : Int) := by nlinarith
  have hm2b : (ty - cy) * (i : Int) ≤ 83886080 := by nlinarith
  have hq1 := tdiv_bounds ((tx - cx) * (i : Int)) steps 83886080 (by omega) hm1a hm1b
    (by norm_num)
  have hq2 := tdiv_bounds ((ty - cy) * (i : Int)) steps 83886080 (by omega) hm2a hm2b
    (by norm_num)
  simp only [moveStepPure]
  split_ifs <;> refine ⟨?_, ?_, ?_, ?_⟩ <;> (try dsimp only) <;> omega

theorem moveStepPure_final (jit : Nat → Int × Int) (steps cx cy tx ty : Int)
    (s : Int × Int) (i : Nat) (h5 : 5 ≤ steps) (hi : (i : Int) = steps) :
    |(moveStepPure jit steps cx cy tx ty s i).1 - (tx - cx)| ≤ 2 ∧
    |(moveStepPure jit steps cx cy tx ty s i).2 - (ty - cy)| ≤ 2 := by
  have hs0 : steps ≠ 0 := by omega
  have hq1 : ((tx - cx) * (i : Int)).tdiv steps = tx - cx := by
    rw [hi]
    exact Int.mul_tdiv_cancel _ hs0
  have hq2 : ((ty - cy) * (i : Int)).tdiv steps = ty - cy := by
    rw [hi]
    exact Int.mul_tdiv_cancel _ hs0
  simp only [moveStepPure, hq1, hq2]
  by_cases h1 : ((i : Int) > steps - 5 ∧ |cx + (tx - cx) - (cx + s.1)| < 3 ∧
      |cy + (ty - cy) - (cy + s.2)| < 3)
  · rw [if_pos h1]
    obtain ⟨-, hdx, hdy⟩ := h1
    rw [abs_lt] at hdx hdy
    constructor <;> (rw [abs_le]; constructor <;> omega)
  · rw [if_neg h1]
    have h2 : ¬ ((i : Int) < steps - 2) := by omega
    rw [if_neg h2, if_neg h2]
    by_cases h3 : (cx + (tx - cx) - (cx + s.1) = 0 ∧ cy + (ty - cy) - (cy + s.2) = 0)
    · rw [if_pos h3]
      obtain ⟨hdx, hdy⟩ := h3
      constructor <;> (rw [abs_le]; constructor <;> omega)
    · rw [if_neg h3]
      dsimp only
      constructor <;> (rw [abs_le]; constructor <;> omega)

theorem foldl_go_pure (jit : Nat → Int × Int)
    (hj : ∀ n, -1 ≤ (jit n).1 ∧ (jit n).1 ≤ 1 ∧ -1 ≤ (jit n).2 ∧ (jit n).2 ≤ 1)
    (steps cx cy tx ty : Int) (h5 : 5 ≤ steps) (h40 : steps ≤ 40)
    (hcx1 : -1048576 ≤ cx) (hcx2 : cx ≤ 1048576)
    (hcy1 : -1048576 ≤ cy) (hcy2 : cy ≤ 1048576)
    (htx1 : -1048576 ≤ tx) (htx2 : tx ≤ 1048576)
    (hty1 : -1048576 ≤ ty) (hty2 : ty ≤ 1048576) :
    ∀ (l : List Nat) (s : Int × Int),
      (∀ i ∈ l, 1 ≤ i ∧ (i : Int) ≤ steps) →
      -90000000 ≤ s.1 → s.1 ≤ 90000000 → -90000000 ≤ s.2 → s.2 ≤ 90000000 →
      l.foldl (moveStepGo jit steps cx cy tx ty) s =
          l.foldl (moveStepPure jit steps cx cy tx ty) s ∧
        -90000000 ≤ (l.foldl (moveStepPure jit steps cx cy tx ty) s).1 ∧
        (l.foldl (moveStepPure jit steps cx cy tx ty) s).1 ≤ 90000000 ∧
        -90000000 ≤ (l.foldl (moveStepPure jit steps cx cy tx ty) s).2 ∧
        (l.foldl (moveStepPure jit steps cx cy tx ty) s).2 ≤ 90000000 := by
  intro l
  induction l with
  | nil =>
    intro s _ h1 h2 h3 h4
    exact ⟨rfl, h1, h2, h3, h4⟩
  | cons a l ih =>
    intro s hmem h1 h2 h3 h4
    have ha := hmem a (List.mem_cons_self a l)
    obtain ⟨hja, hjb, hjc, hjd⟩ := hj a
    have heq := moveStepGo_eq_pure jit steps cx cy tx ty s a hja hjb hjc hjd h5 h40
      hcx1 hcx2 hcy1 hcy2 htx1 htx2 hty1 hty2 h1 h2 h3 h4 ha.1 ha.2
    have hb := moveStepPure_bound jit steps cx cy tx ty s a hja hjb hjc hjd h5 h40
      hcx1 hcx2 hcy1 hcy2 htx1 htx2 hty1 hty2 h1 h2 h3 h4 ha.1 ha.2
    simp only [List.foldl_cons, heq]
    exact ih (moveStepPure jit steps cx cy tx ty s a)
      (fun i hi => hmem i (List.mem_cons_of_mem a hi)) hb.1 hb.2.1 hb.2.2.1 hb.2.2.2

/-- A jitter stream with fixed draws at steps 1 and 2 (the only steps at
which the 5-step instance loop draws jitter) and zero elsewhere. -/
def jitSubst (a b c d : Int) : Nat → Int × Int :=
  fun n => if n = 1 then (a, b) else if n = 2 then (c, d) else (0, 0)

theorem moveStepGo_jit_congr (jit jit' : Nat → Int × Int) (steps cx cy tx ty : Int)
    (s : Int × Int) (i : Nat)
    (h : jit i = jit' i ∨ ¬ ((i : Int) < steps - 2)) :
    moveStepGo jit steps cx cy tx ty s i = moveStepGo jit' steps cx cy tx ty s i := by
  rcases h with h | h
  · simp only [moveStepGo, h]
  · simp only [moveStepGo, if_neg h]

theorem move_instance (jit : Nat → Int × Int)
    (hj : ∀ n, -1 ≤ (jit n).1 ∧ (jit n).1 ≤ 1 ∧ -1 ≤ (jit n).2 ∧ (jit n).2 ≤ 1) :
    moveDeltaSum jit 500 500 520 480 = (20, -20) := by
  have hsteps : moveSteps 500 500 520 480 = 5 := by decide
  obtain ⟨a, b, hj1⟩ : ∃ a b, jit 1 = (a, b) := ⟨(jit 1).1, (jit 1).2, rfl⟩
  obtain ⟨c, d, hj2⟩ : ∃ c d, jit 2 = (c, d) := ⟨(jit 2).1, (jit 2).2, rfl⟩
  have hb1 := hj 1
  have hb2 := hj 2
  rw [hj1] at hb1
  rw [hj2] at hb2
  dsimp only at hb1 hb2
  obtain ⟨ha1, ha2, ha3, ha4⟩ := hb1
  obtain ⟨hd1, hd2, hd3, hd4⟩ := hb2
  have hha1 : ∀ s, moveStepGo jit 5 500 500 520 480 s 1 =
      moveStepGo (jitSubst a b c d) 5 500 500 520 480 s 1 := fun s =>
    moveStepGo_jit_congr _ _ _ _ _ _ _ _ _ (Or.inl (by rw [hj1]; rfl))
  have hha2 : ∀ s, moveStepGo jit 5 500 500 520 480 s 2 =
      moveStepGo (jitSubst a b c d) 5 500 500 520 480 s 2 := fun s =>
    moveStepGo_jit_congr _ _ _ _ _ _ _ _ _ (Or.inl (by rw [hj2]; rfl))
  have hha3 : ∀ s, moveStepGo jit 5 500 500 520 480 s 3 =
      moveStepGo (jitSubst a b c d) 5 500 500 520 480 s 3 := fun s =>
    moveStepGo_jit_congr _ _ _ _ _ _ _ _ _ (Or.inr (by norm_num))
  have hha4 : ∀ s, moveStepGo jit 5 500 500 520 480 s 4 =
      moveStepGo (jitSubst a b c d) 5 500 500 520 480 s 4 := fun s =>
    moveStepGo_jit_congr _ _ _ _ _ _ _ _ _ (Or.inr (by norm_num))
  have hha5 : ∀ s, moveStepGo jit 5 500 500 520 480 s 5 =
      moveStepGo (jitSubst a b c d) 5 500 500 520 480 s 5 := fun s =>
    moveStepGo_jit_congr _ _ _ _ _ _ _ _ _ (Or.inr (by norm_num))
  have hfold : moveDeltaSum jit 500 500 520 480 =
      moveDeltaSum (jitSubst a b c d) 500 500 520 480 := by
    unfold moveDeltaSum
    rw [hsteps]
    show List.foldl (moveStepGo jit 5 500 500 520 480) (0, 0) [1, 2, 3, 4, 5] =
      List.foldl (moveStepGo (jitSubst a b c d) 5 500 500 520 480) (0, 0) [1, 2, 3, 4, 5]
    simp only [List.foldl_cons, List.foldl_nil, hha1, hha2, hha3, hha4, hha5]
  rw [hfold]
  clear hha1 hha2 hha3 hha4 hha5 hfold hj1 hj2 hj
  interval_cases a <;> interval_cases b <;> interval_cases c <;> interval_cases d <;>
    decide

/-- C2 counterexample: the trajectory from (500,500) to (501,500) (zero
jitter drawn) injects no delta at all: every residual is caught by the
small-residual skip, so the delta sum is (0,0), not
(targetX - startX, targetY - startY) = (1,0). -/
theorem move_trajectory_sum_counterexample :
    moveDeltaSum (fun _ => (0, 0)) 500 500 501 500 = (0, 0) ∧
    ((0 : Int), (0 : Int)) ≠ ((501 : Int) - 500, (500 : Int) - 500) := by
  constructor
  · decide
  · decide

/-- C2 (amended): under the nominal-conditions model with per-step jitter
drawn in {-1,0,1} and screen coordinates bounded by 2^20, the injected
deltas sum to (targetX - startX, targetY - startY) up to at most 2 pixels
per axis (the final small-residual skip can leave the last residual,
which is below 3, uninjected); the particular move from (500,500) to
(520,480) sums to exactly (20, -20) for every jitter draw. -/
theorem move_trajectory_sum (jit : Nat → Int × Int)
    (hj : ∀ n, -1 ≤ (jit n).1 ∧ (jit n).1 ≤ 1 ∧ -1 ≤ (jit n).2 ∧ (jit n).2 ≤ 1)
    (cx cy tx ty : Int)
    (hcx1 : -1048576 ≤ cx) (hcx2 : cx ≤ 1048576)
    (hcy1 : -1048576 ≤ cy) (hcy2 : cy ≤ 1048576)
    (htx1 : -1048576 ≤ tx) (htx2 : tx ≤ 1048576)
    (hty1 : -1048576 ≤ ty) (hty2 : ty ≤ 1048576) :
    (|(moveDeltaSum jit cx cy tx ty).1 - (tx - cx)| ≤ 2 ∧
     |(moveDeltaSum jit cx cy tx ty).2 - (ty - cy)| ≤ 2) ∧
    moveDeltaSum jit 500 500 520 480 = (20, -20) := by
  refine ⟨?_, move_instance jit hj⟩
  have hbd := calcSteps_bounds (moveMaxDist cx cy tx ty)
  obtain ⟨N, hN5, hN40, hNeq⟩ :
      ∃ N : Nat, 5 ≤ N ∧ N ≤ 40 ∧ moveSteps cx cy tx ty = (N : Int) := by
    refine ⟨(moveSteps cx cy tx ty).toNat, ?_, ?_, ?_⟩ <;>
      (unfold moveSteps at *; omega)
  have hsplit : List.range' 1 N = List.range' 1 (N - 1) ++ [N] := by
    conv_lhs => rw [show N = (N - 1) + 1 from by omega]
    rw [List.range'_concat]
    congr 1
    simp
    omega
  have hmem : ∀ i ∈ List.range' 1 (N - 1), 1 ≤ i ∧ (i : Int) ≤ moveSteps cx cy tx ty := by
    intro i hi
    rw [List.mem_range'] at hi
    obtain ⟨k, hk1, hk2⟩ := hi
    constructor
    · omega
    · rw [hNeq]
      omega
  have hpre := foldl_go_pure jit hj (moveSteps cx cy tx ty) cx cy tx ty
    (by omega) (by omega) hcx1 hcx2 hcy1 hcy2 htx1 htx2 hty1 hty2
    (List.range' 1 (N - 1)) (0, 0) hmem (by norm_num) (by norm_num) (by norm_num)
    (by norm_num)
  obtain ⟨hja, hjb, hjc, hjd⟩ := hj N
  have hgo := moveStepGo_eq_pure jit (moveSteps cx cy tx ty) cx cy tx ty
    (List.foldl (moveStepPure jit (moveSteps cx cy tx ty) cx cy tx ty) (0, 0)
      (List.range' 1 (N - 1)))
    N hja hjb hjc hjd (by omega) (by omega) hcx1 hcx2 hcy1 hcy2 htx1 htx2 hty1 hty2
    hpre.2.1 hpre.2.2.1 hpre.2.2.2.1 hpre.2.2.2.2 (by omega) (by omega)
  have hfin := moveStepPure_final jit (moveSteps cx cy tx ty) cx cy tx ty
    (List.foldl (moveStepPure jit (moveSteps cx cy tx ty) cx cy tx ty) (0, 0)
      (List.range' 1 (N - 1)))
    N (by omega) hNeq.symm
  have hval : moveDeltaSum jit cx cy tx ty =
      moveStepPure jit (moveSteps cx cy tx ty) cx cy tx ty
        (List.foldl (moveStepPure jit (moveSteps cx cy tx ty) cx cy tx ty) (0, 0)
          (List.range' 1 (N - 1))) N := by
    unfold moveDeltaSum
    rw [show (moveSteps cx cy tx ty).toNat = N from by omega, hsplit,
      List.foldl_append, hpre.1]
    simp only [List.foldl_cons, List.foldl_nil]
    exact hgo
  rw [hval]
  exact hfin

/-- C2 witness: the amended bound and the exact (500,500) → (520,480)
instance at a concrete (zero) jitter stream and concrete coordinates. -/
theorem move_trajectory_sum_witness :
    (|(moveDeltaSum (fun _ => (0, 0)) 100 100 150 130).1 - (150 - 100)| ≤ 2 ∧
     |(moveDeltaSum (fun _ => (0, 0)) 100 100 150 130).2 - (130 - 100)| ≤ 2) ∧
    moveDeltaSum (fun _ => (0, 0)) 500 500 520 480 = (20, -20) :=
  move_trajectory_sum (fun _ => (0, 0)) (fun _ => by norm_num) 100 100 150 130
    (by norm_num) (by norm_num) (by norm_num) (by norm_num) (by norm_num)
    (by norm_num) (by norm_num) (by norm_num)

/-! ## Driver initialization (hid/control.go `Init`)

The OS-facing driver calls are modelled by an environment: whether the
library loads, whether a context is created, and which device indices
answer as mouse- or keyboard-capable. -/

structure HidEnv where
  loadOk : Bool            -- interception.Load() succeeds
  ctxOk : Bool             -- interception.CreateContext() returns nonzero
  isMouse : Nat → Bool     -- interception.IsMouse(device i)
  isKeyboard : Nat → Bool  -- interception.IsKeyboard(device i)

inductive HidEffect
  | destroyContext
  | unload
deriving DecidableEq

inductive InitResult
  | ok (mouseDev keyboardDev : Nat)
  | loadFailed
  | driverNotInstalled
  | noDevices
deriving DecidableEq

/-- The first device index in 1..MaxInterceptionDevices (= 20) satisfying
`p`, else 0: hid/control.go scans `i = 1..20` and keeps the first hit in
each device class (`if IsMouse(dev) && mouseDev == 0 { mouseDev = dev }`). -/
def firstDev (p : Nat → Bool) : Nat := ((List.range' 1 20).find? p).getD 0

/-- `Init` from hid/control.go: load the library, create a context
(unloading on failure), probe devices 1..20, and fail with the
no-devices error — destroying the context and unloading — when the scan
found nothing; the returned effects are the teardown calls made. -/
def hidInit (env : HidEnv) : InitResult × List HidEffect :=
  if !env.loadOk then (.loadFailed, [])
  else if !env.ctxOk then (.driverNotInstalled, [.unload])
  else
    let mouseDev := firstDev env.isMouse
    let keyboardDev := firstDev env.isKeyboard
    if mouseDev = 0 ∧ keyboardDev = 0 then (.noDevices, [.destroyContext, .unload])
    else (.ok mouseDev keyboardDev, [])

theorem firstDev_eq_zero_iff (p : Nat → Bool) :
    firstDev p = 0 ↔ ∀ i, 1 ≤ i → i ≤ 20 → p i = false := by
  unfold firstDev
  rcases hf : (List.range' 1 20).find? p with _ | d
  · rw [List.find?_eq_none] at hf
    simp only [Option.getD_none]
    constructor
    · intro _ i h1 h2
      have : i ∈ List.range' 1 20 := by
        rw [List.mem_range']
        exact ⟨i - 1, by omega, by omega⟩
      simpa using hf i this
    · intro _
      trivial
  · have hd1 := List.find?_some hf
    have hd2 := List.mem_of_find?_eq_some hf
    rw [List.mem_range'] at hd2
    obtain ⟨j, hj1, hj2⟩ := hd2
    simp only [Option.getD_some]
    constructor
    · intro h
      omega
    · intro h
      have := h d (by omega) (by omega)
      rw [this] at hd1
      cases hd1

/-- C7 counterexample: an environment where device 1 is mouse-capable but
no device is keyboard-capable — initialization nevertheless SUCCEEDS
(keyboardDev stays 0), whereas the claim says a missing keyboard-capable
device fails initialization with the no-devices error. -/
theorem hid_init_either_missing_counterexample :
    (hidInit ⟨true, true, fun i => i == 1, fun _ => false⟩).1 = .ok 1 0 ∧
    (hidInit ⟨true, true, fun i => i == 1, fun _ => false⟩).1 ≠ .noDevices := by
  constructor
  · decide
  · decide

/-- C7 (amended): device indices 1..20 are probed for the first
mouse-capable and the first keyboard-capable device; initialization fails
with the no-devices error — and tears the session down (destroy context,
unload) — exactly when NEITHER a mouse-capable NOR a keyboard-capable
device is found; otherwise it succeeds with the first hits (0 marking a
class with no device). -/
theorem hid_init_devices (env : HidEnv) (hl : env.loadOk = true)
    (hc : env.ctxOk = true) :
    (hidInit env = (.noDevices, [.destroyContext, .unload]) ↔
      (∀ i, 1 ≤ i → i ≤ 20 → env.isMouse i = false) ∧
        (∀ i, 1 ≤ i → i ≤ 20 → env.isKeyboard i = false)) ∧
    (¬ (firstDev env.isMouse = 0 ∧ firstDev env.isKeyboard = 0) →
      hidInit env = (.ok (firstDev env.isMouse) (firstDev env.isKeyboard), [])) := by
  unfold hidInit
  rw [hl, hc]
  simp only [Bool.not_true, Bool.false_eq_true, if_false, ite_false]
  constructor
  · by_cases h : (firstDev env.isMouse = 0 ∧ firstDev env.isKeyboard = 0)
    · rw [if_pos h]
      rw [← firstDev_eq_zero_iff, ← firstDev_eq_zero_iff]
      simp [h]
    · rw [if_neg h]
      rw [← firstDev_eq_zero_iff, ← firstDev_eq_zero_iff]
      constructor
      · intro hcontra
        cases hcontra
      · intro hcontra
        exact absurd hcontra h
  · intro h
    rw [if_neg h]

/-- C7 witness: one mouse device (index 3) and one keyboard device
(index 7) present — initialization succeeds with those first hits; and
with no devices at all, initialization fails with no-devices and tears
down. -/
theorem hid_init_devices_witness :
    hidInit ⟨true, true, fun i => i == 3, fun i => i == 7⟩ = (.ok 3 7, []) ∧
    hidInit ⟨true, true, fun _ => false, fun _ => false⟩ =
      (.noDevices, [.destroyContext, .unload]) := by
  constructor
  · have h := (hid_init_devices ⟨true, true, fun i => i == 3, fun i => i == 7⟩
      rfl rfl).2 (by decide)
    rw [h]
    decide
  · exact ((hid_init_devices ⟨true, true, fun _ => false, fun _ => false⟩
      rfl rfl).1).mpr ⟨fun _ _ _ => rfl, fun _ _ _ => rfl⟩

/-! ## DPI resolution (window/dpi.go `GetDPI`) -/

structure DpiEnv where
  dpiForWindowFound : Bool  -- ProcGetDpiForWindow.Find() succeeded
  dpiForWindow : Nat        -- GetDpiForWindow result (0 on failure)
  hdc : Nat                 -- GetDC result (0 on failure)
  devCapsX : Nat            -- GetDeviceCaps(hdc, LOGPIXELSX) (0 on failure)
  devCapsY : Nat            -- GetDeviceCaps(hdc, LOGPIXELSY) (0 on failure)

inductive DpiEffect
  | releaseDC
deriving DecidableEq

/-- `GetDPI` from window/dpi.go: try `GetDpiForWindow` (present on modern
systems and returning nonzero), else fall back to
`GetDC`/`GetDeviceCaps`, substituting 96 for a zero device capability;
the Bool is whether a (non-nil) error is returned, and the effect list
records the deferred `ReleaseDC`. -/
def getDPI (e : DpiEnv) : (Nat × Nat × Bool) × List DpiEffect :=
  if e.dpiForWindowFound ∧ e.dpiForWindow ≠ 0 then
    ((e.dpiForWindow, e.dpiForWindow, false), [])
  else if e.hdc = 0 then ((96, 96, true), [])
  else
    ((if e.devCapsX = 0 then 96 else e.devCapsX,
      if e.devCapsY = 0 then 96 else e.devCapsY, false), [.releaseDC])

/-- C8 counterexample: with the per-window DPI query unavailable, a device
context acquired, and `GetDeviceCaps` failing (returning 0), `GetDPI`
returns the default (96, 96) with a NIL error — the claim says the
default is always paired with a non-nil error.  (There is also no
per-monitor middle tier at all: the only fallback is the device-caps
query.) -/
theorem getDPI_default_counterexample :
    getDPI ⟨false, 0, 5, 0, 0⟩ = ((96, 96, false), [.releaseDC]) := by decide

/-- C8 (amended): DPI resolution tries the direct per-window DPI query
first; if that is unavailable or returns 0 it falls back to the legacy
device-capability query, releasing the acquired device context on that
path; if the device context cannot be acquired it returns the default 96
with a non-nil error; a zero device capability is silently replaced by
96 with a nil error. -/
theorem getDPI_fallback (e : DpiEnv) :
    (e.dpiForWindowFound = true → e.dpiForWindow ≠ 0 →
      getDPI e = ((e.dpiForWindow, e.dpiForWindow, false), [])) ∧
    ((e.dpiForWindowFound = false ∨ e.dpiForWindow = 0) → e.hdc = 0 →
      getDPI e = ((96, 96, true), [])) ∧
    ((e.dpiForWindowFound = false ∨ e.dpiForWindow = 0) → e.hdc ≠ 0 →
      getDPI e = ((if e.devCapsX = 0 then 96 else e.devCapsX,
        if e.devCapsY = 0 then 96 else e.devCapsY, false), [.releaseDC])) := by
  refine ⟨?_, ?_, ?_⟩
  · intro h1 h2
    unfold getDPI
    rw [if_pos ⟨by rw [h1], h2⟩]
  · intro h1 h2
    unfold getDPI
    rw [if_neg (by rcases h1 with h | h <;> simp [h]), if_pos h2]
  · intro h1 h2
    unfold getDPI
    rw [if_neg (by rcases h1 with h | h <;> simp [h]), if_neg h2]

/-- C8 witness: per-window query unavailable, device context acquired,
device caps report 120 dpi horizontally and 0 (failure) vertically. -/
theorem getDPI_fallback_witness :
    getDPI ⟨false, 0, 5, 120, 0⟩ = ((120, 96, false), [.releaseDC]) := by
  have h := (getDPI_fallback ⟨false, 0, 5, 120, 0⟩).2.2 (Or.inl rfl) (by norm_num)
  rw [h]
  decide

/-! ## Backend dispatcher and safety wrapper (winput.go)

The OS surface consumed by the wrapper (window liveness, visibility,
message posting, virtual-key mapping, coordinate conversion, cursor
position, driver availability) is modelled by an environment; an
operation returns its result together with the ordered list of
observable effects (initialization attempts and deliveries). -/

inductive Backend
  | message
  | hid
deriving DecidableEq

inductive WErr
  | windowGone
  | windowNotVisible
  | driverNotInstalled
  | dllLoadFailed
  | postFailed
  | unsupportedKey
  | apiFailed
deriving DecidableEq

inductive Effect
  | hidInitAttempt
  | hidMoveTraj (tx ty : Int)        -- hid.Move trajectory to (tx, ty)
  | hidMouseState (state : Nat)      -- a button stroke through the driver
  | hidWheel (delta : Int)
  | hidKey (code : Nat) (down : Bool)
  | postMsg (msg : Nat) (wparam : Nat) (lparam : Nat)
deriving DecidableEq

structure Env where
  valid : Bool             -- window.IsValid hwnd
  visible : Bool           -- window.IsWindowVisible hwnd
  iconic : Bool            -- window.IsIconic hwnd
  backend : Backend        -- currentBackend
  hidInitOk : Bool         -- hid.Init() succeeds
  hidDriverMissing : Bool  -- on failure: ErrDriverNotInstalled vs load error
  hidSendOk : Bool         -- interception_send outcome
  postOk : Bool            -- PostMessageW outcome
  c2sOk : Bool             -- ClientToScreen / ScreenToClient call outcome
  offX : Int               -- client-origin offset: screen = client + off
  offY : Int
  cursorX : Int            -- GetCursorPos
  cursorY : Int
  mapVK : Nat → Nat        -- MapVirtualKeyW, scan code → virtual key (0 = none)

/-- Result of one operation: outcome plus ordered observable effects. -/
abbrev OpResult := Except WErr Unit × List Effect

/-- Sequencing with Go-style early return on error. -/
def andThen (r : OpResult) (k : Unit → OpResult) : OpResult :=
  match r with
  | (.error err, eff) => (.error err, eff)
  | (.ok _, eff) =>
      let r2 := k ()
      (r2.1, eff ++ r2.2)

/-- `(*Window).IsVisible` from winput.go: visible and not minimized. -/
def isVisibleWin (e : Env) : Bool := e.visible && !e.iconic

/-- `checkReady` from winput.go. -/
def checkReady (e : Env) : Option WErr :=
  if !e.valid then some .windowGone
  else if !(isVisibleWin e) then some .windowNotVisible
  else none

/-- `checkBackend` from winput.go: under the HID backend, attempt
`hid.Init()`, mapping `ErrDriverNotInstalled` and load failures into the
shared error set; the attempt itself is an initialization effect. -/
def checkBackendOp (e : Env) : Option WErr × List Effect :=
  match e.backend with
  | .message => (none, [])
  | .hid =>
      if e.hidInitOk then (none, [.hidInitAttempt])
      else if e.hidDriverMissing then (some .driverNotInstalled, [.hidInitAttempt])
      else (some .dllLoadFailed, [.hidInitAttempt])

/-- The common prelude of every `(*Window)` input method in winput.go:
`inputMutex.Lock()` (serialization, not modelled here), `w.checkReady()`,
then `checkBackend()`; the body runs only when both succeed. -/
def withReady (e : Env) (body : Env → OpResult) : OpResult :=
  match checkReady e with
  | some err => (.error err, [])
  | none =>
      match checkBackendOp e with
      | (some err, eff) => (.error err, eff)
      | (none, eff) =>
          let r := body e
          (r.1, eff ++ r.2)

/-- `window.ClientToScreen` (window package): fails on a minimized window
or when the underlying call fails; otherwise translates by the client
origin. -/
def clientToScreenE (e : Env) (x y : Int) : Except WErr (Int × Int) :=
  if e.iconic then .error .apiFailed
  else if e.c2sOk then .ok (x + e.offX, y + e.offY)
  else .error .apiFailed

/-- `window.ScreenToClient` (window package), inverse translation. -/
def screenToClientE (e : Env) (x y : Int) : Except WErr (Int × Int) :=
  if e.iconic then .error .apiFailed
  else if e.c2sOk then .ok (x - e.offX, y - e.offY)
  else .error .apiFailed

/-- `post` from mouse/post.go and keyboard/post.go: a PostMessageW call
(recorded as an effect) whose failure is wrapped as an error. -/
def postMsgOp (e : Env) (msg wparam lparam : Nat) : OpResult :=
  if e.postOk then (.ok (), [.postMsg msg wparam lparam])
  else (.error .postFailed, [.postMsg msg wparam lparam])

/-- A driver `send` (control.go via interception): recorded as an effect,
failure surfaced as an error. -/
def hidSendOp (e : Env) (eff : Effect) : OpResult :=
  if e.hidSendOk then (.ok (), [eff]) else (.error .apiFailed, [eff])

def WM_KEYDOWN : Nat := 0x0100
def WM_KEYUP : Nat := 0x0101
def WM_CHAR : Nat := 0x0102
def WM_MOUSEMOVE : Nat := 0x0200
def WM_LBUTTONDOWN : Nat := 0x0201
def WM_LBUTTONUP : Nat := 0x0202
def WM_LBUTTONDBLCLK : Nat := 0x0203
def WM_RBUTTONDOWN : Nat := 0x0204
def WM_RBUTTONUP : Nat := 0x0205
def WM_MBUTTONDOWN : Nat := 0x0207
def WM_MBUTTONUP : Nat := 0x0208
def WM_MOUSEWHEEL : Nat := 0x020A
def MK_LBUTTON : Nat := 0x1
def MK_RBUTTON : Nat := 0x2
def MK_MBUTTON : Nat := 0x10

/-- `makeWheelWParam`-shape from mouse/post.go `Scroll`: key-state flags
(zero) in the low word, the signed delta in the high word. -/
def makeWheelWParam (delta : Int) : Nat := 0 ||| (toUnsigned 16 delta <<< 16)

/-! mouse package (mouse/post.go), message backend -/

def mouseMoveMsg (e : Env) (x y : Int) : OpResult :=
  postMsgOp e WM_MOUSEMOVE 0 (makeLParam x y)

def mouseClickMsg (e : Env) (x y : Int) : OpResult :=
  andThen (mouseMoveMsg e x y) fun _ =>
  andThen (postMsgOp e WM_LBUTTONDOWN MK_LBUTTON (makeLParam x y)) fun _ =>
  postMsgOp e WM_LBUTTONUP 0 (makeLParam x y)

def mouseClickRightMsg (e : Env) (x y : Int) : OpResult :=
  andThen (mouseMoveMsg e x y) fun _ =>
  andThen (postMsgOp e WM_RBUTTONDOWN MK_RBUTTON (makeLParam x y)) fun _ =>
  postMsgOp e WM_RBUTTONUP 0 (makeLParam x y)

def mouseClickMiddleMsg (e : Env) (x y : Int) : OpResult :=
  andThen (mouseMoveMsg e x y) fun _ =>
  andThen (postMsgOp e WM_MBUTTONDOWN MK_MBUTTON (makeLParam x y)) fun _ =>
  postMsgOp e WM_MBUTTONUP 0 (makeLParam x y)

def mouseDoubleClickMsg (e : Env) (x y : Int) : OpResult :=
  andThen (mouseClickMsg e x y) fun _ =>
  andThen (postMsgOp e WM_LBUTTONDBLCLK MK_LBUTTON (makeLParam x y)) fun _ =>
  postMsgOp e WM_LBUTTONUP 0 (makeLParam x y)

def mouseScrollMsg (e : Env) (x y delta : Int) : OpResult :=
  match clientToScreenE e x y with
  | .error err => (.error err, [])
  | .ok (sx, sy) => postMsgOp e WM_MOUSEWHEEL (makeWheelWParam delta) (makeLParam sx sy)

/-! keyboard package (keyboard/post.go), message backend -/

def keyDownMsg (e : Env) (key : Nat) : OpResult :=
  if e.mapVK key = 0 then (.error .unsupportedKey, [])
  else postMsgOp e WM_KEYDOWN (e.mapVK key) (makeKeyLParam key false)

def keyUpMsg (e : Env) (key : Nat) : OpResult :=
  if e.mapVK key = 0 then (.error .unsupportedKey, [])
  else postMsgOp e WM_KEYUP (e.mapVK key) (makeKeyLParam key true)

/-- `keyboard.Type` (WM_CHAR path) for one code point: characters above
0xFFFF are split into a surrogate pair. -/
def keyboardTypeChar (e : Env) (c : Nat) : OpResult :=
  if c > 0xFFFF then
    andThen (postMsgOp e WM_CHAR (0xD800 + (c - 0x10000) / 1024) 1) fun _ =>
      postMsgOp e WM_CHAR (0xDC00 + (c - 0x10000) % 1024) 1
  else postMsgOp e WM_CHAR c 1

/-- `keyboard.Type` from keyboard/post.go: posts each character of the
text as WM_CHAR (no scan-code lookup involved), stopping at the first
post failure. -/
def keyboardType (e : Env) : List Nat → OpResult
  | [] => (.ok (), [])
  | c :: rest => andThen (keyboardTypeChar e c) fun _ => keyboardType e rest

/-! hid package (hid/control.go), driver backend -/

def MouseStateLeftDown : Nat := 0x001
def MouseStateLeftUp : Nat := 0x002
def MouseStateRightDown : Nat := 0x004
def MouseStateRightUp : Nat := 0x008
def MouseStateMiddleDown : Nat := 0x010
def MouseStateMiddleUp : Nat := 0x020
def MouseStateWheel : Nat := 0x400

/-- `hid.Move`: the synthesized trajectory to the target, abstracted as
one effect (its delta sequence is `moveDeltaSum`, verified separately). -/
def hidMoveOp (e : Env) (tx ty : Int) : OpResult :=
  hidSendOp e (.hidMoveTraj tx ty)

def hidClickOp (e : Env) (x y : Int) : OpResult :=
  andThen (hidMoveOp e x y) fun _ =>
  andThen (hidSendOp e (.hidMouseState MouseStateLeftDown)) fun _ =>
  hidSendOp e (.hidMouseState MouseStateLeftUp)

def hidClickRightOp (e : Env) (x y : Int) : OpResult :=
  andThen (hidMoveOp e x y) fun _ =>
  andThen (hidSendOp e (.hidMouseState MouseStateRightDown)) fun _ =>
  hidSendOp e (.hidMouseState MouseStateRightUp)

def hidClickMiddleOp (e : Env) (x y : Int) : OpResult :=
  andThen (hidMoveOp e x y) fun _ =>
  andThen (hidSendOp e (.hidMouseState MouseStateMiddleDown)) fun _ =>
  hidSendOp e (.hidMouseState MouseStateMiddleUp)

def hidDoubleClickOp (e : Env) (x y : Int) : OpResult :=
  andThen (hidClickOp e x y) fun _ => hidClickOp e x y

def hidScrollOp (e : Env) (delta : Int) : OpResult :=
  hidSendOp e (.hidWheel delta)

def hidKeyOp (e : Env) (code : Nat) (down : Bool) : OpResult :=
  hidSendOp e (.hidKey code down)

/-! winput.go implementation helpers and public `(*Window)` wrappers -/

/-- `moveImpl` from winput.go. -/
def moveImpl (e : Env) (x y : Int) (isRelative : Bool) : OpResult :=
  match e.backend with
  | .hid =>
      if isRelative then hidMoveOp e (e.cursorX + x) (e.cursorY + y)
      else
        match clientToScreenE e x y with
        | .error err => (.error err, [])
        | .ok (sx, sy) => hidMoveOp e sx sy
  | .message =>
      if isRelative then
        match screenToClientE e (e.cursorX + x) (e.cursorY + y) with
        | .error err => (.error err, [])
        | .ok (cx, cy) => mouseMoveMsg e cx cy
      else mouseMoveMsg e x y

/-- `keyDownImpl` from winput.go (window target, hwnd ≠ 0). -/
def keyDownImpl (e : Env) (key : Nat) : OpResult :=
  match e.backend with
  | .hid => hidKeyOp e key true
  | .message => keyDownMsg e key

/-- `keyUpImpl` from winput.go (window target, hwnd ≠ 0). -/
def keyUpImpl (e : Env) (key : Nat) : OpResult :=
  match e.backend with
  | .hid => hidKeyOp e key false
  | .message => keyUpMsg e key

def winMove (e : Env) (x y : Int) : OpResult :=
  withReady e fun e => moveImpl e x y false

def winMoveRel (e : Env) (dx dy : Int) : OpResult :=
  withReady e fun e => moveImpl e dx dy true

def winClick (e : Env) (x y : Int) : OpResult :=
  withReady e fun e =>
    match e.backend with
    | .hid =>
        match clientToScreenE e x y with
        | .error err => (.error err, [])
        | .ok (sx, sy) => hidClickOp e sx sy
    | .message => mouseClickMsg e x y

def winClickRight (e : Env) (x y : Int) : OpResult :=
  withReady e fun e =>
    match e.backend with
    | .hid =>
        match clientToScreenE e x y with
        | .error err => (.error err, [])
        | .ok (sx, sy) => hidClickRightOp e sx sy
    | .message => mouseClickRightMsg e x y

def winClickMiddle (e : Env) (x y : Int) : OpResult :=
  withReady e fun e =>
    match e.backend with
    | .hid =>
        match clientToScreenE e x y with
        | .error err => (.error err, [])
        | .ok (sx, sy) => hidClickMiddleOp e sx sy
    | .message => mouseClickMiddleMsg e x y

def winDoubleClick (e : Env) (x y : Int) : OpResult :=
  withReady e fun e =>
    match e.backend with
    | .hid =>
        match clientToScreenE e x y with
        | .error err => (.error err, [])
        | .ok (sx, sy) => hidDoubleClickOp e sx sy
    | .message => mouseDoubleClickMsg e x y

def winScroll (e : Env) (x y delta : Int) : OpResult :=
  withReady e fun e =>
    match e.backend with
    | .hid => hidScrollOp e delta
    | .message => mouseScrollMsg e x y delta

def winKeyDown (e : Env) (key : Nat) : OpResult :=
  withReady e fun e => keyDownImpl e key

def winKeyUp (e : Env) (key : Nat) : OpResult :=
  withReady e fun e => keyUpImpl e key

def winPress (e : Env) (key : Nat) : OpResult :=
  withReady e fun e =>
    andThen (keyDownImpl e key) fun _ => keyUpImpl e key

def hotkeyDowns (e : Env) : List Nat → OpResult
  | [] => (.ok (), [])
  | k :: rest => andThen (keyDownImpl e k) fun _ => hotkeyDowns e rest

def hotkeyUps (e : Env) : List Nat → OpResult
  | [] => (.ok (), [])
  | k :: rest => andThen (keyUpImpl e k) fun _ => hotkeyUps e rest

/-- `(*Window).PressHotkey`: keys down in order, then up in reverse. -/
def winPressHotkey (e : Env) (keys : List Nat) : OpResult :=
  withReady e fun e =>
    andThen (hotkeyDowns e keys) fun _ => hotkeyUps e keys.reverse

/-! `(*Window).Type` (winput.go) and the scan-code table (keyboard/keys.go) -/

def KeyShift : Nat := 0x2A

/-- `runeMap` from keyboard/keys.go: character → (scan code, shift). -/
def runeMap : List (Char × Nat × Bool) := [
  ('a', 0x1E, false), ('A', 0x1E, true),
  ('b', 0x30, false), ('B', 0x30, true),
  ('c', 0x2E, false), ('C', 0x2E, true),
  ('d', 0x20, false), ('D', 0x20, true),
  ('e', 0x12, false), ('E', 0x12, true),
  ('f', 0x21, false), ('F', 0x21, true),
  ('g', 0x22, false), ('G', 0x22, true),
  ('h', 0x23, false), ('H', 0x23, true),
  ('i', 0x17, false), ('I', 0x17, true),
  ('j', 0x24, false), ('J', 0x24, true),
  ('k', 0x25, false), ('K', 0x25, true),
  ('l', 0x26, false), ('L', 0x26, true),
  ('m', 0x32, false), ('M', 0x32, true),
  ('n', 0x31, false), ('N', 0x31, true),
  ('o', 0x18, false), ('O', 0x18, true),
  ('p', 0x19, false), ('P', 0x19, true),
  ('q', 0x10, false), ('Q', 0x10, true),
  ('r', 0x13, false), ('R', 0x13, true),
  ('s', 0x1F, false), ('S', 0x1F, true),
  ('t', 0x14, false), ('T', 0x14, true),
  ('u', 0x16, false), ('U', 0x16, true),
  ('v', 0x2F, false), ('V', 0x2F, true),
  ('w', 0x11, false), ('W', 0x11, true),
  ('x', 0x2D, false), ('X', 0x2D, true),
  ('y', 0x15, false), ('Y', 0x15, true),
  ('z', 0x2C, false), ('Z', 0x2C, true),
  ('0', 0x0B, false), (')', 0x0B, true),
  ('1', 0x02, false), ('!', 0x02, true),
  ('2', 0x03, false), ('@', 0x03, true),
  ('3', 0x04, false), ('#', 0x04, true),
  ('4', 0x05, false), ('$', 0x05, true),
  ('5', 0x06, false), ('%', 0x06, true),
  ('6', 0x07, false), ('^', 0x07, true),
  ('7', 0x08, false), ('&', 0x08, true),
  ('8', 0x09, false), ('*', 0x09, true),
  ('9', 0x0A, false), ('(', 0x0A, true),
  ('`', 0x29, false), ('~', 0x29, true),
  ('-', 0x0C, false), ('_', 0x0C, true),
  ('=', 0x0D, false), ('+', 0x0D, true),
  ('[', 0x1A, false), ('\x7b', 0x1A, true),
  (']', 0x1B, false), ('\x7d', 0x1B, true),
  ('\\', 0x2B, false), ('|', 0x2B, true),
  (';', 0x27, false), (':', 0x27, true),
  ('\'', 0x28, false), ('"', 0x28, true),
  (',', 0x33, false), ('<', 0x33, true),
  ('.', 0x34, false), ('>', 0x34, true),
  ('/', 0x35, false), ('?', 0x35, true),
  (' ', 0x39, false),
  ('\n', 0x1C, false),
  ('\t', 0x0F, false)]

/-- `LookupKey` from keyboard/keys.go. -/
def lookupKey (c : Char) : Option (Nat × Bool) := runeMap.lookup c

/-- The HID loop of `(*Window).Type` in winput.go: look each character
up, fail with the unsupported-key error on a miss, otherwise press the
key (with a surrounding Shift for shifted characters); the results of
the individual `hid.KeyDown`/`hid.Press`/`hid.KeyUp` calls are discarded
by the Go code, so only their effects appear. -/
def hidTypeLoop (e : Env) : List Char → OpResult
  | [] => (.ok (), [])
  | c :: rest =>
      match lookupKey c with
      | none => (.error .unsupportedKey, [])
      | some (k, shifted) =>
          let eff := if shifted then
              [Effect.hidKey KeyShift true, .hidKey k true, .hidKey k false,
                .hidKey KeyShift false]
            else [Effect.hidKey k true, .hidKey k false]
          let r := hidTypeLoop e rest
          (r.1, eff ++ r.2)

/-- `(*Window).Type` from winput.go: on the message backend it delegates
to `keyboard.Type` (WM_CHAR per character); on the HID backend it runs
the scan-code lookup loop. -/
def winType (e : Env) (text : List Char) : OpResult :=
  withReady e fun e =>
    match e.backend with
    | .message => keyboardType e (text.map Char.toNat)
    | .hid => hidTypeLoop e text

/-- The error `checkReady` reports for a window that fails validation. -/
def readyErr (e : Env) : WErr := if e.valid then .windowNotVisible else .windowGone

theorem withReady_fails (e : Env) (body : Env → OpResult)
    (h : e.valid = false ∨ e.visible = false ∨ e.iconic = true) :
    withReady e body = (.error (readyErr e), []) := by
  unfold withReady checkReady isVisibleWin readyErr
  cases hv : e.valid
  · simp
  · rcases h with h | h | h
    · rw [hv] at h
      cases h
    · simp [h]
    · simp [h]

/-- C6: every public input operation on a window target re-validates the
target immediately before acting: a handle that no longer resolves to a
live window yields the target-invalid error, and a hidden or minimized
window the not-visible error, in both cases before any event is encoded,
any backend is initialized, or anything is delivered (the effect list is
empty). -/
theorem ops_validate_before_acting (e : Env) (x y dx dy delta : Int)
    (key : Nat) (keys : List Nat) (text : List Char)
    (h : e.valid = false ∨ e.visible = false ∨ e.iconic = true) :
    winMove e x y = (.error (readyErr e), []) ∧
    winMoveRel e dx dy = (.error (readyErr e), []) ∧
    winClick e x y = (.error (readyErr e), []) ∧
    winClickRight e x y = (.error (readyErr e), []) ∧
    winClickMiddle e x y = (.error (readyErr e), []) ∧
    winDoubleClick e x y = (.error (readyErr e), []) ∧
    winScroll e x y delta = (.error (readyErr e), []) ∧
    winKeyDown e key = (.error (readyErr e), []) ∧
    winKeyUp e key = (.error (readyErr e), []) ∧
    winPress e key = (.error (readyErr e), []) ∧
    winPressHotkey e keys = (.error (readyErr e), []) ∧
    winType e text = (.error (readyErr e), []) ∧
    (e.valid = false → readyErr e = .windowGone) ∧
    (e.valid = true → readyErr e = .windowNotVisible) := by
  refine ⟨withReady_fails e _ h, withReady_fails e _ h, withReady_fails e _ h,
    withReady_fails e _ h, withReady_fails e _ h, withReady_fails e _ h,
    withReady_fails e _ h, withReady_fails e _ h, withReady_fails e _ h,
    withReady_fails e _ h, withReady_fails e _ h, withReady_fails e _ h,
    ?_, ?_⟩
  · intro hv
    unfold readyErr
    rw [hv]
    rfl
  · intro hv
    unfold readyErr
    rw [hv]
    rfl

/-- C6 witness: a stale handle (valid = false) under the HID backend, and
a minimized window (valid but iconic) under the message backend. -/
theorem ops_validate_before_acting_witness :
    winMove ⟨false, true, false, .hid, true, false, true, true, true, 7, 9, 0, 0,
        fun _ => 1⟩ 3 4 =
      (.error .windowGone, []) ∧
    winPress ⟨true, true, true, .message, true, false, true, true, true, 7, 9, 0, 0,
        fun _ => 1⟩ 30 =
      (.error .windowNotVisible, []) := by
  constructor
  · have h := ops_validate_before_acting
      ⟨false, true, false, .hid, true, false, true, true, true, 7, 9, 0, 0, fun _ => 1⟩
      3 4 0 0 0 30 [] [] (Or.inl rfl)
    rw [h.1]
    rw [h.2.2.2.2.2.2.2.2.2.2.2.2.1 rfl]
  · have h := ops_validate_before_acting
      ⟨true, true, true, .message, true, false, true, true, true, 7, 9, 0, 0, fun _ => 1⟩
      0 0 0 0 0 30 [] [] (Or.inr (Or.inr rfl))
    rw [h.2.2.2.2.2.2.2.2.2.1]
    rw [h.2.2.2.2.2.2.2.2.2.2.2.2.2 rfl]

theorem hidTypeLoop_err (e : Env) : ∀ text : List Char,
    (hidTypeLoop e text).1 = .error .unsupportedKey ↔
      ∃ c ∈ text, lookupKey c = none := by
  intro text
  induction text with
  | nil => simp [hidTypeLoop]
  | cons c rest ih =>
    unfold hidTypeLoop
    rcases hl : lookupKey c with _ | kv
    · simp only [hl]
      constructor
      · intro _
        exact ⟨c, List.mem_cons_self c rest, hl⟩
      · intro _
        trivial
    · rcases kv with ⟨k, shifted⟩
      dsimp only
      rw [ih]
      constructor
      · intro hr
        obtain ⟨x, hx1, hx2⟩ := hr
        exact ⟨x, List.mem_cons_of_mem c hx1, hx2⟩
      · intro hr
        obtain ⟨x, hx1, hx2⟩ := hr
        rcases List.mem_cons.mp hx1 with hxc | hxm
        · subst hxc
          rw [hl] at hx2
          cases hx2
        · exact ⟨x, hxm, hx2⟩

theorem andThen_fst_ok (r : OpResult) (k : Unit → OpResult) (hr : r.1 = .ok ()) :
    (andThen r k).1 = (k ()).1 := by
  obtain ⟨x, eff⟩ := r
  dsimp only at hr
  subst hr
  rfl

theorem keyboardType_ok (e : Env) (hp : e.postOk = true) :
    ∀ cs : List Nat, (keyboardType e cs).1 = .ok () := by
  have hpost : ∀ m w l, postMsgOp e m w l = (.ok (), [.postMsg m w l]) := by
    intro m w l
    unfold postMsgOp
    rw [hp]
    rfl
  have hchar : ∀ c, (keyboardTypeChar e c).1 = .ok () := by
    intro c
    unfold keyboardTypeChar
    split_ifs with h
    · rw [andThen_fst_ok _ _ (by rw [hpost]), hpost]
    · rw [hpost]
  intro cs
  induction cs with
  | nil => rfl
  | cons c rest ih =>
    unfold keyboardType
    rw [andThen_fst_ok _ _ (hchar c)]
    exact ih

/-- C9 counterexample: typing the euro sign (which has no scan-code
mapping) on the message backend: `(*Window).Type` succeeds, delivering
the character as a WM_CHAR message without consulting the scan-code
table — no unsupported-key error is returned. -/
theorem type_unsupported_counterexample :
    lookupKey '€' = none ∧
    winType ⟨true, true, false, .message, true, false, true, true, true, 0, 0, 0, 0,
        fun _ => 1⟩ ['€'] =
      (.ok (), [.postMsg WM_CHAR 0x20AC 1]) := by
  constructor
  · decide
  · rfl

/-- C9 (amended): only the hardware backend's typing loop consults the
scan-code table: there `(*Window).Type` returns the unsupported-key error
exactly when some character of the text has no mapping (failing at the
first such character; driver send failures inside the loop are
discarded).  On the message backend the text is delivered per character
as WM_CHAR with no scan-code mapping involved, so typing succeeds with no
unsupported-key error and no character skipped. -/
theorem type_unsupported_policy (e : Env) (text : List Char)
    (hv : e.valid = true) (hvis : e.visible = true) (hic : e.iconic = false)
    (hinit : e.hidInitOk = true) :
    (e.backend = .hid →
      ((winType e text).1 = .error .unsupportedKey ↔
        ∃ c ∈ text, lookupKey c = none)) ∧
    (e.backend = .message → e.postOk = true → (winType e text).1 = .ok ()) := by
  have hready : checkReady e = none := by
    unfold checkReady isVisibleWin
    rw [hv, hvis, hic]
    rfl
  constructor
  · intro hb
    have hcb : checkBackendOp e = (none, [.hidInitAttempt]) := by
      unfold checkBackendOp
      rw [hb, hinit]
      rfl
    have hw : winType e text =
        ((hidTypeLoop e text).1, [Effect.hidInitAttempt] ++ (hidTypeLoop e text).2) := by
      unfold winType withReady
      rw [hready, hcb]
      dsimp only
      rw [hb]
    rw [hw]
    exact hidTypeLoop_err e text
  · intro hb hp
    have hcb : checkBackendOp e = (none, []) := by
      unfold checkBackendOp
      rw [hb]
    have hw : winType e text =
        ((keyboardType e (text.map Char.toNat)).1,
          [] ++ (keyboardType e (text.map Char.toNat)).2) := by
      unfold winType withReady
      rw [hready, hcb]
      dsimp only
      rw [hb]
    rw [hw]
    exact keyboardType_ok e hp _

/-- C9 witness: the euro sign makes the HID-backend Type fail with the
unsupported-key error, while typing "a" on the message backend succeeds. -/
theorem type_unsupported_policy_witness :
    (winType ⟨true, true, false, .hid, true, false, true, true, true, 0, 0, 0, 0,
        fun _ => 1⟩ ['€']).1 = .error .unsupportedKey ∧
    (winType ⟨true, true, false, .message, true, false, true, true, true, 0, 0, 0, 0,
        fun _ => 1⟩ ['a']).1 = .ok () := by
  constructor
  · exact ((type_unsupported_policy _ ['€'] rfl rfl rfl rfl).1 rfl).mpr
      ⟨'€', by decide, by decide⟩
  · exact (type_unsupported_policy _ ['a'] rfl rfl rfl rfl).2 rfl rfl

/-! ## Backend switches versus in-flight operations (winput.go)

`(*Window).Press` delivers its key-down via `keyDownImpl(getBackend(), …)`
and its key-up via a second, separate `keyUpImpl(getBackend(), …)` call.
`SetBackend` mutates `currentBackend` under `backendMutex` only — it does
not take `inputMutex`, the operation-serialization lock — so a switch can
be scheduled between any two of the atomic actions a Press performs.  We
model the joint execution as a small-step system: the Press thread
performs four atomic actions (read backend, deliver down, read backend,
deliver up) and the switching thread performs one. -/

inductive PressEvent
  | down (b : Backend)
  | up (b : Backend)
deriving DecidableEq

structure PressState where
  backend : Backend      -- currentBackend (shared, switch-mutable)
  pc : Nat               -- how many of Press's four actions have run
  b1 : Backend           -- result of the first getBackend()
  b2 : Backend           -- result of the second getBackend()
  events : List PressEvent
deriving DecidableEq

/-- One atomic action of `(*Window).Press`: pc 0 = first `getBackend()`,
pc 1 = deliver key-down encoded via that read, pc 2 = second
`getBackend()`, pc 3 = deliver key-up encoded via the second read. -/
def pressStep (s : PressState) : PressState :=
  match s.pc with
  | 0 => { s with pc := 1, b1 := s.backend }
  | 1 => { s with pc := 2, events := s.events ++ [.down s.b1] }
  | 2 => { s with pc := 3, b2 := s.backend }
  | 3 => { s with pc := 4, events := s.events ++ [.up s.b2] }
  | _ => s

/-- The atomic `SetBackend b` action (winput.go): writes `currentBackend`
under `backendMutex`; it does not touch the Press thread's state. -/
def setBackendStep (b : Backend) (s : PressState) : PressState :=
  { s with backend := b }

/-- Run a schedule: `true` advances the Press thread, `false` runs the
concurrent `SetBackend b`.  Every interleaving is allowed because
`SetBackend` never waits on the operation lock the Press holds. -/
def runSched (b : Backend) (sched : List Bool) (s : PressState) : PressState :=
  match sched with
  | [] => s
  | t :: rest => runSched b rest (if t then pressStep s else setBackendStep b s)

def pressInit (b0 : Backend) : PressState := ⟨b0, 0, b0, b0, []⟩

/-- A complete press with the switch scheduled after exactly `k` of the
press's four atomic actions. -/
def pressWithSwitchAt (b0 bNew : Backend) (k : Nat) : PressState :=
  runSched bNew (List.replicate k true ++ [false] ++ List.replicate (4 - k) true)
    (pressInit b0)

/-- C10 counterexample: starting on the message backend, a concurrent
switch to the driver backend scheduled between Press's two `getBackend()`
reads makes the key-down use the message encoding and the key-up the
driver encoding: two different encodings inside one logical action. -/
theorem press_switch_counterexample :
    (pressWithSwitchAt .message .hid 2).events = [.down .message, .up .hid] ∧
    Backend.message ≠ .hid := by
  constructor
  · decide
  · decide

/-- C10 (amended): a Press's events under a concurrent backend switch,
for every switch position: both events use the pre-switch backend when
the switch lands after the second read (k ≥ 3), both use the post-switch
backend when it lands before the first read (k = 0), but a switch between
the two reads (k = 1 or 2) splits one logical press across the two
encodings, because Press re-reads the backend between its key-down and
key-up and `SetBackend` is not serialized against in-flight operations. -/
theorem press_switch_characterization (b0 bNew : Backend) (k : Nat) (hk : k ≤ 4) :
    (pressWithSwitchAt b0 bNew k).events =
      if k = 0 then [.down bNew, .up bNew]
      else if k ≤ 2 then [.down b0, .up bNew]
      else [.down b0, .up b0] := by
  interval_cases k <;> cases b0 <;> cases bNew <;> decide

/-- C10 witness: the switch position k = 3 (after both reads) keeps the
whole press on the original backend. -/
theorem press_switch_characterization_witness :
    (pressWithSwitchAt .message .hid 3).events =
      (if (3 : Nat) = 0 then [PressEvent.down .hid, .up .hid]
       else if (3 : Nat) ≤ 2 then [PressEvent.down .message, .up .hid]
       else [PressEvent.down .message, .up .message]) :=
  press_switch_characterization .message .hid 3 (by norm_num)

end Winput
